import Mathlib

/-!
Verification development for the capitalflow portfolio-tracking service.

The definitions below are a shallow embedding of the Python sources:
`app/portfolio/positions.py` (tax-lot engine and position calculator),
`app/ingestion/base.py` (parsed-transaction net-amount rule),
`app/api/v1/endpoints/auth.py` (registration), `app/canonicalization/canonicalizer.py`
and `app/ingestion/service.py` (canonical-id generation, including a faithful MD5),
`app/api/v1/endpoints/reports.py` (capital-gains report),
`app/portfolio/corporate_actions.py` (stock splits), and
`app/portfolio/returns.py` (XIRR Newton-Raphson).

Python `Decimal` values are embedded as `ℚ` (exact for every literal appearing in
the claims), `datetime` values at day granularity as `ℤ`, and Python `or` /
truthiness on optionals through explicit helper functions.
-/

namespace Capitalflow

/-- Transaction type enumeration from `app/db/models.py` (`TransactionType`). -/
inductive TransactionType where
  | buy | sell | dividend | interest | bonus | split | spin_off
deriving DecidableEq, Repr

/-- Asset class enumeration from `app/db/models.py` (`AssetClass`). -/
inductive AssetClass where
  | equity | mutual_fund | bond | commodity | real_estate | cash | cryptocurrency
deriving DecidableEq, Repr

/-- The `.value` string of each `AssetClass` member, as in `app/db/models.py`. -/
def AssetClass.value : AssetClass → String
  | .equity => "equity"
  | .mutual_fund => "mutual_fund"
  | .bond => "bond"
  | .commodity => "commodity"
  | .real_estate => "real_estate"
  | .cash => "cash"
  | .cryptocurrency => "cryptocurrency"

/-- Upper-case an ASCII letter (the identifier values, asset-class tags and hex
digests this development upper-cases are all ASCII, where Python's
`str.upper()` acts letterwise). -/
def asciiUpperChar (c : Char) : Char :=
  if 97 ≤ c.toNat ∧ c.toNat ≤ 122 then Char.ofNat (c.toNat - 32) else c

/-- Letterwise ASCII upper-casing of a string. -/
def asciiUpper (s : String) : String :=
  String.mk (s.data.map asciiUpperChar)

/-- ASCII whitespace test (the characters Python's `str.strip()` removes for
the plain identifier strings used here). -/
def isSpaceChar (c : Char) : Bool :=
  c = ' ' || c = '\t' || c = '\n' || c = '\r'

/-- `str.strip()`: remove leading and trailing whitespace. -/
def asciiTrim (s : String) : String :=
  String.mk (((s.data.dropWhile isSpaceChar).reverse.dropWhile isSpaceChar).reverse)

/-- First `n` characters of a string (Python slicing `s[:n]`). -/
def strTake (n : Nat) (s : String) : String :=
  String.mk (s.data.take n)

/-- Python truthiness of an optional string (`None` and `""` are falsy). -/
def pyTruthyStr : Option String → Bool
  | none => false
  | some s => !s.data.isEmpty

/-- Python truthiness of an optional `Decimal` (`None` and `0` are falsy). -/
def pyTruthyQ : Option ℚ → Bool
  | none => false
  | some x => !(x == 0)

/-- `transaction.net_amount or transaction.gross_amount`: Python `or` falls back
when `net_amount` is `None` or zero (`Decimal('0')` is falsy). -/
def netOrGross (net : Option ℚ) (gross : ℚ) : ℚ :=
  match net with
  | none => gross
  | some n => if n = 0 then gross else n

/-- A `Transaction` row restricted to the fields the portfolio engine reads
(`app/db/models.py` lines 178-217); dates are day numbers. -/
structure Txn where
  id : String
  instrument_id : String
  instrument_name : Option String
  transaction_type : TransactionType
  transaction_date : ℤ
  quantity : ℚ
  price : ℚ
  gross_amount : ℚ
  net_amount : Option ℚ
  currency : String
deriving DecidableEq, Repr

/-- A `TaxLot` row with exactly the columns declared in `app/db/models.py`
lines 259-281 (and constructed by `TaxLotManager._process_purchase`). -/
structure TaxLot where
  position_id : String
  transaction_id : String
  quantity : ℚ
  remaining_quantity : ℚ
  cost_per_share : ℚ
  acquisition_date : ℤ
  is_closed : Bool
deriving DecidableEq, Repr

/-- `RealizedGain` dataclass from `app/portfolio/positions.py` lines 58-82. -/
structure RealizedGain where
  instrument_id : String
  instrument_name : String
  sale_date : ℤ
  sale_quantity : ℚ
  sale_price : ℚ
  sale_proceeds : ℚ
  cost_basis : ℚ
  cost_per_share : ℚ
  realized_gain : ℚ
  gain_percentage : ℚ
  is_long_term : Bool
  holding_period_days : ℤ
  sale_transaction_id : String
  acquisition_lots : List (String × ℚ × ℚ)
deriving DecidableEq, Repr

/-- `TaxLotSnapshot` dataclass from `app/portfolio/positions.py` lines 46-55. -/
structure TaxLotSnapshot where
  acquisition_date : ℤ
  quantity : ℚ
  remaining_quantity : ℚ
  cost_per_share : ℚ
  total_cost : ℚ
  is_long_term : Bool
  days_held : ℤ
deriving DecidableEq, Repr

/-- `PositionSnapshot` dataclass from `app/portfolio/positions.py` lines 25-43. -/
structure PositionSnapshot where
  instrument_id : String
  instrument_name : String
  quantity : ℚ
  average_cost : ℚ
  total_cost : ℚ
  current_price : Option ℚ
  market_value : Option ℚ
  unrealized_pnl : Option ℚ
  currency : String
  tax_lots : List TaxLotSnapshot
deriving DecidableEq, Repr

/-- Tax-lot selection methods (`TaxLotMethod` in `app/portfolio/positions.py`). -/
inductive TaxLotMethod where
  | fifo | lifo | spec_id
deriving DecidableEq, Repr

/-- Stable insertion of a lot into a list sorted ascending by acquisition date:
the new lot is placed after every lot with an earlier-or-equal date, so folding
over a list reproduces Python's stable `sorted(..., key=lambda lot: lot.acquisition_date)`. -/
def insertLotAsc (x : TaxLot) : List TaxLot → List TaxLot
  | [] => [x]
  | y :: ys =>
    if y.acquisition_date ≤ x.acquisition_date then y :: insertLotAsc x ys
    else x :: y :: ys

/-- `sorted(existing_lots, key=lambda lot: lot.acquisition_date)` (FIFO order),
`app/portfolio/positions.py` line 153. -/
def sortLotsAsc (lots : List TaxLot) : List TaxLot :=
  lots.foldl (fun acc x => insertLotAsc x acc) []

/-- Stable descending insertion (newest first), for the LIFO branch. -/
def insertLotDesc (x : TaxLot) : List TaxLot → List TaxLot
  | [] => [x]
  | y :: ys =>
    if x.acquisition_date ≤ y.acquisition_date then y :: insertLotDesc x ys
    else x :: y :: ys

/-- `sorted(existing_lots, key=..., reverse=True)` (LIFO order), line 155. -/
def sortLotsDesc (lots : List TaxLot) : List TaxLot :=
  lots.foldl (fun acc x => insertLotDesc x acc) []

/-- The lot ordering chosen by `TaxLotManager._process_sale` lines 151-157. -/
def sortLotsForSale (method : TaxLotMethod) (lots : List TaxLot) : List TaxLot :=
  match method with
  | .fifo => sortLotsAsc lots
  | .lifo => sortLotsDesc lots
  | .spec_id => lots

/-- The lot-consumption loop of `TaxLotManager._process_sale` lines 159-189:
walks the sorted lots, consuming `min(remaining_to_sell, lot.remaining_quantity)`
from each open lot, closing a lot whose remaining quantity reaches zero, and
accumulating `(transaction_id, quantity, cost)` triples and the total cost basis.
Returns (updated lots, acquisition lots, total cost basis). -/
def consumeLots (remaining_to_sell : ℚ) :
    List TaxLot → List TaxLot × List (String × ℚ × ℚ) × ℚ
  | [] => ([], [], 0)
  | lot :: rest =>
    if remaining_to_sell ≤ 0 then
      let r := consumeLots remaining_to_sell rest
      (lot :: r.1, r.2.1, r.2.2)
    else if lot.remaining_quantity ≤ 0 then
      let r := consumeLots remaining_to_sell rest
      (lot :: r.1, r.2.1, r.2.2)
    else
      let quantity_from_lot := min remaining_to_sell lot.remaining_quantity
      let cost_from_lot := quantity_from_lot * lot.cost_per_share
      let lot' : TaxLot :=
        { lot with
          remaining_quantity := lot.remaining_quantity - quantity_from_lot
          is_closed :=
            if lot.remaining_quantity - quantity_from_lot ≤ 0 then true else lot.is_closed }
      let r := consumeLots (remaining_to_sell - quantity_from_lot) rest
      (lot' :: r.1, (lot.transaction_id, quantity_from_lot, cost_from_lot) :: r.2.1,
        cost_from_lot + r.2.2)

/-- `min(existing_lots, key=lambda lot: lot.acquisition_date).acquisition_date
if existing_lots else sale_date` (lines 197-199); Python `min` keeps the first
element among ties. -/
def firstAcquisitionDate (lots : List TaxLot) (sale_date : ℤ) : ℤ :=
  match lots with
  | [] => sale_date
  | l :: ls =>
    (ls.foldl (fun best x =>
      if x.acquisition_date < best.acquisition_date then x else best) l).acquisition_date

/-- `TaxLotManager._process_purchase` (lines 110-138): append a fresh open lot. -/
def processPurchase (t : Txn) (existing_lots : List TaxLot) :
    List TaxLot × List RealizedGain :=
  let new_lot : TaxLot :=
    { position_id := ""
      transaction_id := t.id
      quantity := t.quantity
      remaining_quantity := t.quantity
      cost_per_share := t.price
      acquisition_date := t.transaction_date
      is_closed := false }
  (existing_lots ++ [new_lot], [])

/-- `TaxLotManager._process_sale` (lines 140-232).  The only failing operation is
the `Decimal` division `total_cost_basis / sale_quantity` (line 215), which
raises when the sale quantity is zero; it is surfaced through `Except`. -/
def processSale (method : TaxLotMethod) (t : Txn) (existing_lots : List TaxLot) :
    Except String (List TaxLot × List RealizedGain) :=
  let sorted_lots := sortLotsForSale method existing_lots
  let consumed := consumeLots t.quantity sorted_lots
  let updated_lots := consumed.1
  let acquisition_lots := consumed.2.1
  let total_cost_basis := consumed.2.2
  if t.quantity = 0 then .error "DivisionByZero"
  else
    let sale_proceeds := t.quantity * t.price
    let realized_gain_amount := sale_proceeds - total_cost_basis
    let gain_percentage :=
      if 0 < total_cost_basis then realized_gain_amount / total_cost_basis * 100 else 0
    let holding_days := t.transaction_date - firstAcquisitionDate existing_lots t.transaction_date
    let realized_gain : RealizedGain :=
      { instrument_id := t.instrument_id
        instrument_name := ""
        sale_date := t.transaction_date
        sale_quantity := t.quantity
        sale_price := t.price
        sale_proceeds := sale_proceeds
        cost_basis := total_cost_basis
        cost_per_share := total_cost_basis / t.quantity
        realized_gain := realized_gain_amount
        gain_percentage := gain_percentage
        is_long_term := decide (365 ≤ holding_days)
        holding_period_days := holding_days
        sale_transaction_id := t.id
        acquisition_lots := acquisition_lots }
    .ok (updated_lots, [realized_gain])

/-- `TaxLotManager.process_transaction` (lines 92-108): dispatch on transaction
type; dividends and other types leave the lots untouched. -/
def processTransaction (method : TaxLotMethod) (t : Txn) (lots : List TaxLot) :
    Except String (List TaxLot × List RealizedGain) :=
  match t.transaction_type with
  | .buy => .ok (processPurchase t lots)
  | .sell => processSale method t lots
  | _ => .ok (lots, [])

/-- Stable insertion of a transaction into a list sorted ascending by date
(reproduces Python's stable `sorted(transactions, key=lambda t: t.transaction_date)`,
`app/portfolio/positions.py` line 293). -/
def insertTxnAsc (x : Txn) : List Txn → List Txn
  | [] => [x]
  | y :: ys =>
    if y.transaction_date ≤ x.transaction_date then y :: insertTxnAsc x ys
    else x :: y :: ys

/-- `sorted(transactions, key=lambda t: t.transaction_date)`. -/
def sortTxnsAsc (ts : List Txn) : List Txn :=
  ts.foldl (fun acc x => insertTxnAsc x acc) []

/-- The transaction-replay loop of `PositionCalculator.calculate_position`
(lines 300-324), carried state `(total_quantity, total_cost, tax_lots,
realized_gains)`; the manager is constructed with the default FIFO method. -/
def replayLoop :
    List Txn → ℚ × ℚ × List TaxLot × List RealizedGain →
    Except String (ℚ × ℚ × List TaxLot × List RealizedGain)
  | [], acc => .ok acc
  | t :: ts, (total_quantity, total_cost, tax_lots, realized_gains) =>
    match t.transaction_type with
    | .buy =>
      let res := processPurchase t tax_lots
      replayLoop ts (total_quantity + t.quantity,
        total_cost + netOrGross t.net_amount t.gross_amount,
        res.1, realized_gains ++ res.2)
    | .sell =>
      match processSale .fifo t tax_lots with
      | .error e => .error e
      | .ok res =>
        replayLoop ts (total_quantity - t.quantity, total_cost,
          res.1, realized_gains ++ res.2)
    | _ => replayLoop ts (total_quantity, total_cost, tax_lots, realized_gains)

/-- `sum(lot.remaining_quantity * lot.cost_per_share for lot in tax_lots if
lot.remaining_quantity > 0)` (lines 327-330). -/
def remainingCost (lots : List TaxLot) : ℚ :=
  (lots.map (fun l =>
    if 0 < l.remaining_quantity then l.remaining_quantity * l.cost_per_share else 0)).sum

/-- Total remaining quantity across open lots (used to state the oversell claim). -/
def availableQuantity (lots : List TaxLot) : ℚ :=
  (lots.map (fun l =>
    if 0 < l.remaining_quantity then l.remaining_quantity else 0)).sum

/-- `PositionCalculator.calculate_position` (lines 281-381).  Raises
`ValueError("No transactions provided")` on an empty input; propagates the
tax-lot manager's failure; otherwise builds the `PositionSnapshot` exactly as
lines 326-371 do (`current_price` is tested with Python truthiness, so a zero
price yields no market value). -/
def calculatePosition (transactions : List Txn) (current_price : Option ℚ)
    (valuation_date : ℤ) : Except String PositionSnapshot :=
  match transactions with
  | [] => .error "No transactions provided"
  | _ :: _ =>
    match sortTxnsAsc transactions with
    | [] => .error "No transactions provided"
    | first_txn :: rest =>
      match replayLoop (first_txn :: rest) (0, 0, [], []) with
      | .error e => .error e
      | .ok (total_quantity, _total_cost, tax_lots, _realized_gains) =>
        let remaining_cost := remainingCost tax_lots
        let average_cost :=
          if 0 < total_quantity then remaining_cost / total_quantity else 0
        let market_value :=
          match current_price with
          | some p => if p ≠ 0 ∧ 0 < total_quantity then some (total_quantity * p) else none
          | none => none
        let unrealized_pnl := market_value.map (fun mv => mv - remaining_cost)
        let tax_lot_snapshots := tax_lots.filterMap (fun lot =>
          if 0 < lot.remaining_quantity then
            some { acquisition_date := lot.acquisition_date
                   quantity := lot.quantity
                   remaining_quantity := lot.remaining_quantity
                   cost_per_share := lot.cost_per_share
                   total_cost := lot.remaining_quantity * lot.cost_per_share
                   is_long_term := decide (365 ≤ valuation_date - lot.acquisition_date)
                   days_held := valuation_date - lot.acquisition_date }
          else (none : Option TaxLotSnapshot))
        .ok { instrument_id := first_txn.instrument_id
              instrument_name := first_txn.instrument_name.getD ""
              quantity := total_quantity
              average_cost := average_cost
              total_cost := remaining_cost
              current_price := current_price
              market_value := market_value
              unrealized_pnl := unrealized_pnl
              currency := first_txn.currency
              tax_lots := tax_lot_snapshots }

/-- `ParsedTransaction` from `app/ingestion/base.py` lines 11-44, restricted to
the monetary fields its `__post_init__` reads. -/
structure ParsedTransaction where
  transaction_type : TransactionType
  quantity : ℚ
  price : ℚ
  gross_amount : ℚ
  brokerage : ℚ
  taxes : ℚ
  other_charges : ℚ
  net_amount : Option ℚ
deriving DecidableEq, Repr

/-- `ParsedTransaction.__post_init__` (lines 38-44): derive the net amount when
it was not supplied; for `buy` the charges are added, otherwise subtracted. -/
def mkParsedTransaction (transaction_type : TransactionType)
    (quantity price gross_amount brokerage taxes other_charges : ℚ)
    (net_amount : Option ℚ) : ParsedTransaction :=
  let derived_net :=
    match net_amount with
    | some n => some n
    | none =>
      if transaction_type = TransactionType.buy then
        some (gross_amount + brokerage + taxes + other_charges)
      else
        some (gross_amount - brokerage - taxes - other_charges)
  { transaction_type := transaction_type
    quantity := quantity
    price := price
    gross_amount := gross_amount
    brokerage := brokerage
    taxes := taxes
    other_charges := other_charges
    net_amount := derived_net }

/-- Shared HTTP error shape (status code and detail string). -/
structure HttpError where
  status : Nat
  detail : String
deriving DecidableEq, Repr

/-- A `User` row (`app/db/models.py` lines 72-84, persisted fields read by the
auth endpoints). -/
structure UserRow where
  email : String
  hashed_password : String
  full_name : String
  is_active : Bool
deriving DecidableEq, Repr

/-- Registration request body (`UserRegister` in `app/api/v1/endpoints/auth.py`). -/
structure UserRegister where
  email : String
  password : String
  full_name : String
deriving DecidableEq, Repr

/-- Public user view returned by registration (`UserResponse`). -/
structure UserResponse where
  email : String
  full_name : String
  is_active : Bool
deriving DecidableEq, Repr

/-- The body of the `try` block of the `register` endpoint
(`app/api/v1/endpoints/auth.py` lines 69-101): an existing user with the same
email raises `HTTPException(status.HTTP_400_BAD_REQUEST, "Email already
registered")`; otherwise the user is created and committed.  The password
hash function is passed as a parameter (`get_password_hash`). -/
def registerTryBlock (hashFn : String → String) (user_data : UserRegister)
    (users : List UserRow) : Except HttpError (UserResponse × List UserRow) :=
  if users.any (fun u => u.email == user_data.email) then
    .error { status := 400, detail := "Email already registered" }
  else
    let new_user : UserRow :=
      { email := user_data.email
        hashed_password := hashFn user_data.password
        full_name := user_data.full_name
        is_active := true }
    .ok ({ email := new_user.email, full_name := new_user.full_name,
           is_active := new_user.is_active }, users ++ [new_user])

/-- The `register` endpoint (lines 65-109).  Its `except Exception` clause has
no preceding `except HTTPException: raise` (unlike `login`), so the 400
`HTTPException` raised for a duplicate email is itself caught, the unit of work
is rolled back, and a 500 "Registration failed" error is surfaced instead.
Returns the response together with the resulting user table. -/
def register (hashFn : String → String) (user_data : UserRegister)
    (users : List UserRow) : Except HttpError UserResponse × List UserRow :=
  match registerTryBlock hashFn user_data users with
  | .ok (resp, users') => (.ok resp, users')
  | .error _ => (.error { status := 500, detail := "Registration failed" }, users)

/-! MD5 (RFC 1321), modelling Python's `hashlib.md5(...).hexdigest()` used by
`CanonicalIdGenerator.generate` and `IngestionService._generate_canonical_id`.
32-bit words are `Nat` values kept below `2 ^ 32` explicitly. -/

/-- UTF-8 encoding of a single code point as a list of byte values. -/
def utf8EncodeCp (n : Nat) : List Nat :=
  if n < 128 then [n]
  else if n < 2048 then [192 + n / 64, 128 + n % 64]
  else if n < 65536 then [224 + n / 4096, 128 + (n / 64) % 64, 128 + n % 64]
  else [240 + n / 262144, 128 + (n / 4096) % 64, 128 + (n / 64) % 64, 128 + n % 64]

/-- UTF-8 bytes of a string (Python's `str.encode('utf-8')`). -/
def utf8Bytes (s : String) : List Nat :=
  (s.data.map (fun c => utf8EncodeCp c.toNat)).flatten

/-- The 64 MD5 sine-derived constants. -/
def md5K : List Nat :=
  [3614090360, 3905402710, 606105819, 3250441966,
   4118548399, 1200080426, 2821735955, 4249261313,
   1770035416, 2336552879, 4294925233, 2304563134,
   1804603682, 4254626195, 2792965006, 1236535329,
   4129170786, 3225465664, 643717713, 3921069994,
   3593408605, 38016083, 3634488961, 3889429448,
   568446438, 3275163606, 4107603335, 1163531501,
   2850285829, 4243563512, 1735328473, 2368359562,
   4294588738, 2272392833, 1839030562, 4259657740,
   2763975236, 1272893353, 4139469664, 3200236656,
   681279174, 3936430074, 3572445317, 76029189,
   3654602809, 3873151461, 530742520, 3299628645,
   4096336452, 1126891415, 2878612391, 4237533241,
   1700485571, 2399980690, 4293915773, 2240044497,
   1873313359, 4264355552, 2734768916, 1309151649,
   4149444226, 3174756917, 718787259, 3951481745]

/-- The 64 MD5 per-round left-rotation amounts. -/
def md5S : List Nat :=
  [7, 12, 17, 22, 7, 12, 17, 22, 7, 12, 17, 22, 7, 12, 17, 22,
   5, 9, 14, 20, 5, 9, 14, 20, 5, 9, 14, 20, 5, 9, 14, 20,
   4, 11, 16, 23, 4, 11, 16, 23, 4, 11, 16, 23, 4, 11, 16, 23,
   6, 10, 15, 21, 6, 10, 15, 21, 6, 10, 15, 21, 6, 10, 15, 21]

/-- Bitwise complement on 32-bit words. -/
def not32 (x : Nat) : Nat := 4294967295 - x

/-- Left rotation of a 32-bit word by `c` places (`0 < c < 32`): the low part is
shifted up modulo `2 ^ 32` and the high `c` bits wrap to the bottom. -/
def rotl32 (x c : Nat) : Nat := (x * 2 ^ c) % 4294967296 + x / 2 ^ (32 - c)

/-- Little-endian byte decomposition of a `Nat` into `k` bytes. -/
def leBytes (k n : Nat) : List Nat :=
  (List.range k).map (fun i => (n / 2 ^ (8 * i)) % 256)

/-- MD5 padding: append `0x80`, zero-pad to 56 mod 64, then the 64-bit
little-endian bit length. -/
def md5Pad (msg : List Nat) : List Nat :=
  let len := msg.length
  let padlen := (119 - len % 64) % 64
  msg ++ [128] ++ List.replicate padlen 0 ++ leBytes 8 ((len * 8) % 2 ^ 64)

/-- Little-endian 32-bit words of a 64-byte chunk. -/
def md5Words (chunk : List Nat) : List Nat :=
  (List.range 16).map (fun j =>
    chunk.getD (4 * j) 0 + chunk.getD (4 * j + 1) 0 * 256 +
    chunk.getD (4 * j + 2) 0 * 65536 + chunk.getD (4 * j + 3) 0 * 16777216)

/-- One MD5 operation (round `i`) on the state `(a, b, c, d)`. -/
def md5Op (m : List Nat) (st : Nat × Nat × Nat × Nat) (i : Nat) :
    Nat × Nat × Nat × Nat :=
  let (a, b, c, d) := st
  let f :=
    if i < 16 then (b &&& c) ||| (not32 b &&& d)
    else if i < 32 then (b &&& d) ||| (c &&& not32 d)
    else if i < 48 then b ^^^ c ^^^ d
    else c ^^^ (b ||| not32 d)
  let g :=
    if i < 16 then i
    else if i < 32 then (5 * i + 1) % 16
    else if i < 48 then (3 * i + 5) % 16
    else (7 * i) % 16
  let f' := (f + a + md5K.getD i 0 + m.getD g 0) % 4294967296
  (d, (b + rotl32 f' (md5S.getD i 0)) % 4294967296, b, c)

/-- Process one 64-byte chunk, updating the running digest state. -/
def md5Chunk (st : Nat × Nat × Nat × Nat) (chunk : List Nat) :
    Nat × Nat × Nat × Nat :=
  let (a0, b0, c0, d0) := st
  let m := md5Words chunk
  let (a, b, c, d) := (List.range 64).foldl (md5Op m) (a0, b0, c0, d0)
  ((a0 + a) % 4294967296, (b0 + b) % 4294967296,
   (c0 + c) % 4294967296, (d0 + d) % 4294967296)

/-- Split a byte list into 64-byte chunks (the padded length is a multiple of 64). -/
def chunks64 (bs : List Nat) : List (List Nat) :=
  (List.range ((bs.length + 63) / 64)).map (fun i => (bs.drop (64 * i)).take 64)

/-- Lower-case hexadecimal rendering of one byte. -/
def byteToHex (n : Nat) : List Char :=
  let dig := fun (k : Nat) =>
    if k < 10 then Char.ofNat (48 + k) else Char.ofNat (87 + k)
  [dig (n / 16 % 16), dig (n % 16)]

/-- `hashlib.md5(s.encode('utf-8')).hexdigest()`: the 32-character lower-case
hex digest of the UTF-8 encoding of `s`. -/
def md5Hex (s : String) : String :=
  let (a, b, c, d) :=
    (chunks64 (md5Pad (utf8Bytes s))).foldl md5Chunk
      (1732584193, 4023233417, 2562383102, 271733878)
  let bytes := leBytes 4 a ++ leBytes 4 b ++ leBytes 4 c ++ leBytes 4 d
  String.mk ((bytes.map byteToHex).flatten)

/-- Identifier types from `app/canonicalization/canonicalizer.py` lines 12-18. -/
inductive IdentifierType where
  | isin | amfi_code | cusip | symbol | manual
deriving DecidableEq, Repr

/-- `InstrumentIdentifier` dataclass (lines 21-35); `mkInstrumentIdentifier`
below applies its `__post_init__` normalization. -/
structure InstrumentIdentifier where
  identifier_type : IdentifierType
  value : String
  exchange : Option String
  country : Option String
deriving DecidableEq, Repr

/-- `InstrumentIdentifier.__post_init__`: trim and upper-case the value and, when
present, the exchange and country. -/
def mkInstrumentIdentifier (identifier_type : IdentifierType) (value : String)
    (exchange country : Option String) : InstrumentIdentifier :=
  { identifier_type := identifier_type
    value := asciiUpper (asciiTrim value)
    exchange := exchange.map (fun e => asciiUpper (asciiTrim e))
    country := country.map (fun c => asciiUpper (asciiTrim c)) }

/-- The priority table of `InstrumentCanonicalizer._select_primary_identifier`
(lines 341-348): ISIN > AMFI > CUSIP > SYMBOL > MANUAL. -/
def idPriority : IdentifierType → Nat
  | .isin => 1
  | .amfi_code => 2
  | .cusip => 3
  | .symbol => 4
  | .manual => 5

/-- `InstrumentCanonicalizer._select_primary_identifier` (lines 338-352):
`sorted` is stable, so the result is the first identifier of minimal priority;
an empty list raises `IndexError` (modelled as `none`). -/
def selectPrimaryIdentifier (identifiers : List InstrumentIdentifier) :
    Option InstrumentIdentifier :=
  match identifiers with
  | [] => none
  | x :: xs =>
    some (xs.foldl (fun best y =>
      if idPriority y.identifier_type < idPriority best.identifier_type then y else best) x)

/-- `primary_identifier.exchange or "UNK"` (line 209): Python `or` treats both
`None` and the empty string as falsy. -/
def exchangeOrUnk (exchange : Option String) : String :=
  match exchange with
  | none => "UNK"
  | some e => if e.data.isEmpty then "UNK" else e

/-- `CanonicalIdGenerator.generate` (lines 188-215): canonical id from the
primary identifier; the manual/unknown branch hashes the name with MD5 and
upper-cases the first 8 hex digits. -/
def canonicalIdGenerate (primary_identifier : InstrumentIdentifier)
    (asset_class : AssetClass) (name : String) : String :=
  match primary_identifier.identifier_type with
  | .isin => "ISIN:" ++ primary_identifier.value
  | .amfi_code => "AMFI:" ++ primary_identifier.value
  | .cusip => "CUSIP:" ++ primary_identifier.value
  | .symbol => exchangeOrUnk primary_identifier.exchange ++ ":" ++ primary_identifier.value
  | .manual =>
    "MANUAL:" ++ asciiUpper asset_class.value ++ ":" ++
      asciiUpper (strTake 8 (md5Hex name))

/-- The identifier fields of a `ParsedTransaction` consumed by
`IngestionService._generate_canonical_id` (`app/ingestion/service.py`). -/
structure ParsedTxnIdentifiers where
  isin : Option String
  amfi_code : Option String
  cusip : Option String
  symbol : Option String
  exchange : Option String
  instrument_name : String
deriving DecidableEq, Repr

/-- `IngestionService._generate_canonical_id` (`app/ingestion/service.py`
lines 272-286): same priority order as the canonicalizer, but its manual
fallback is `MANUAL:` followed by the first 8 *lower-case* hex digits of the
MD5 of the name, with no asset-class segment. -/
def ingestionGenerateCanonicalId (p : ParsedTxnIdentifiers) : String :=
  if pyTruthyStr p.isin then "ISIN:" ++ p.isin.getD ""
  else if pyTruthyStr p.amfi_code then "AMFI:" ++ p.amfi_code.getD ""
  else if pyTruthyStr p.cusip then "CUSIP:" ++ p.cusip.getD ""
  else if pyTruthyStr p.symbol && pyTruthyStr p.exchange then
    p.exchange.getD "" ++ ":" ++ p.symbol.getD ""
  else "MANUAL:" ++ strTake 8 (md5Hex p.instrument_name)

/-! Capital-gains report endpoint (`app/api/v1/endpoints/reports.py`).
SQLAlchemy resolves each attribute named in the query against the mapped class;
the attribute lists below are transcribed from `app/db/models.py`. -/

/-- Columns shared by every model via `Base` (`app/core/database.py` lines 11-20). -/
def baseModelAttrs : List String := ["id", "created_at", "updated_at"]

/-- The mapped attributes of `TaxLot` (`app/db/models.py` lines 259-281):
columns plus the `position` and `transaction` relationships. -/
def taxLotAttrs : List String :=
  baseModelAttrs ++
    ["position_id", "transaction_id", "quantity", "remaining_quantity",
     "cost_per_share", "acquisition_date", "is_closed", "position", "transaction"]

/-- The mapped attributes of `Position` (`app/db/models.py` lines 225-255). -/
def positionAttrs : List String :=
  baseModelAttrs ++
    ["portfolio_id", "instrument_id", "quantity", "average_cost", "total_cost",
     "current_price", "market_value", "unrealized_pnl", "currency", "last_updated",
     "portfolio", "instrument", "tax_lots"]

/-- The `TaxLot` attributes resolved while constructing the capital-gains query
(`reports.py` lines 47-63): `TaxLot.transaction`, `TaxLot.buy_transaction`,
`TaxLot.status`. -/
def capitalGainsQueryTaxLotAttrs : List String :=
  ["transaction", "buy_transaction", "status"]

/-- `financial_year.replace("FY", "").split("-")` then `int(...)` with the
two-digit end-year expansion (`reports.py` lines 38-40); any failure
(missing parts, non-numeric) raises and is modelled as `none`. -/
def parseFinancialYear (financial_year : String) : Option (Nat × Nat) :=
  match (financial_year.replace "FY" "").splitOn "-" with
  | a :: b :: _ =>
    match a.toNat?, b.toNat? with
    | some start_year, some ey => some (start_year, if ey < 100 then ey + 2000 else ey)
    | _, _ => none
  | _ => none

/-- Response shape of the capital-gains report (`CapitalGainsResponse`). -/
structure CapitalGainsResponse where
  financial_year : String
  total_transactions : Nat
  total_short_term_gains : ℚ
  total_long_term_gains : ℚ
  net_capital_gains : ℚ
deriving DecidableEq, Repr

/-- `get_capital_gains_report` (`reports.py` lines 27-139).  The whole body runs
inside a `try` whose `except Exception` answers HTTP 500 "Error generating
capital gains report".  After parsing the financial year, query construction
resolves `TaxLot.buy_transaction` and `TaxLot.status`, neither of which is a
mapped attribute of `TaxLot`, so an `AttributeError` is raised and caught: the
success branch is unreachable (witnessed by `absurd`), and every call returns
the 500 error. -/
def getCapitalGainsReport (financial_year : String) (_db_lots : List TaxLot) :
    Except HttpError CapitalGainsResponse :=
  match parseFinancialYear financial_year with
  | none => .error { status := 500, detail := "Error generating capital gains report" }
  | some _ =>
    if h : capitalGainsQueryTaxLotAttrs.all (fun a => taxLotAttrs.contains a) = true then
      absurd h (by decide)
    else
      .error { status := 500, detail := "Error generating capital gains report" }

/-! Corporate-action processor (`app/portfolio/corporate_actions.py`). -/

/-- `CorporateActionStatus` enumeration (`app/db/models.py` lines 61-69). -/
inductive CorporateActionStatus where
  | pending | approved | processing | completed | failed | merger | rights
deriving DecidableEq, Repr

/-- A stock-split `CorporateAction` row restricted to the fields the split
path reads. -/
structure StockSplitAction where
  status : CorporateActionStatus
  ratio_old : Option ℚ
  ratio_new : Option ℚ
deriving DecidableEq, Repr

/-- A `Position` row restricted to the fields the split loop touches. -/
structure PositionRow where
  quantity : ℚ
  average_cost : ℚ
deriving DecidableEq, Repr

/-- The portfolio state a corporate action mutates. -/
structure CAState where
  positions : List PositionRow
  tax_lots : List TaxLot
deriving DecidableEq, Repr

/-- The `Position` attributes read by the split position loop
(`corporate_actions.py` lines 94-98): `quantity` and `average_price`. -/
def splitPositionLoopAttrs : List String := ["quantity", "average_price"]

/-- The `TaxLot` attributes resolved by the split tax-lot query (line 112):
`status`. -/
def splitTaxLotQueryAttrs : List String := ["status"]

/-- `CorporateActionProcessor._process_stock_split` (lines 76-120).  Missing or
zero ratios (Python falsiness) raise a `ValueError`.  For a non-empty list of
open positions, the first loop iteration reads `position.average_price`, which
is not an attribute of `Position` (the model declares `average_cost`), raising
`AttributeError` before any assignment; with no open position the subsequent
tax-lot query resolves `TaxLot.status`, which likewise does not exist.  Either
way the state is never mutated. -/
def processStockSplit (action : StockSplitAction) (s : CAState) :
    Except String CAState :=
  if !pyTruthyQ action.ratio_old || !pyTruthyQ action.ratio_new then
    .error "Stock split requires ratio_old and ratio_new"
  else
    match s.positions.filter (fun p => 0 < p.quantity) with
    | _ :: _ =>
      if h : splitPositionLoopAttrs.all (fun a => positionAttrs.contains a) = true then
        absurd h (by decide)
      else
        .error "AttributeError: Position has no attribute average_price"
    | [] =>
      if h : splitTaxLotQueryAttrs.all (fun a => taxLotAttrs.contains a) = true then
        absurd h (by decide)
      else
        .error "AttributeError: TaxLot has no attribute status"

/-- `CorporateActionProcessor.process_action` (lines 27-74), specialised to a
stock-split action: requires `pending` status, flips to `processing`, runs the
split, and on success commits `completed`; any exception (including the
not-pending `ValueError`) is caught, the action is marked `failed`, the session
(with whatever mutations succeeded) is committed, and the error re-raised.
Returns the outcome, the final action status, and the final state. -/
def processActionStockSplit (action : StockSplitAction) (s : CAState) :
    Except String Bool × CorporateActionStatus × CAState :=
  if action.status ≠ CorporateActionStatus.pending then
    (.error "Corporate action is not in pending status", .failed, s)
  else
    match processStockSplit action s with
    | .ok s' => (.ok true, .completed, s')
    | .error e => (.error e, .failed, s)

/-! XIRR Newton-Raphson (`app/portfolio/returns.py` lines 295-352).  The float
computation `amount / ((1 + rate) ** year)` uses a real-valued power with
fractional exponent; it is abstracted as a function parameter `fpow`, and every
statement below holds for all `fpow`. -/

/-- The inner cash-flow loop (lines 328-336): accumulates NPV and its
derivative; the guard `if rate == -1.0` reassigns `rate` to `-0.99999` inside
the loop, so the rate travels with the accumulator. -/
def npvLoop (fpow : ℚ → ℚ → ℚ) (pairs : List (ℚ × ℚ)) (rate : ℚ) : ℚ × ℚ × ℚ :=
  pairs.foldl (fun (st : ℚ × ℚ × ℚ) (p : ℚ × ℚ) =>
    let (rate, npv, dnpv) := st
    let (amount, year) := p
    let rate := if rate = -1 then -(99999 / 100000 : ℚ) else rate
    let discounted_amount := amount / fpow (1 + rate) year
    let npv := npv + discounted_amount
    let dnpv := if year ≠ 0 then dnpv - year * discounted_amount / (1 + rate) else dnpv
    (rate, npv, dnpv)) (rate, 0, 0)

/-- The Newton-Raphson iteration (`for _ in range(max_iterations)`, lines
323-350), with the remaining fuel explicit and the number of executed loop
bodies counted: convergence returns the rate; a near-zero derivative or a rate
outside `[-0.99, 10.0]` breaks out; exhausted fuel falls through to the final
`return None`. -/
def xirrIterate (fpow : ℚ → ℚ → ℚ) (pairs : List (ℚ × ℚ)) (rate : ℚ) :
    Nat → Option ℚ × Nat
  | 0 => (none, 0)
  | fuel + 1 =>
    let st := npvLoop fpow pairs rate
    let rate := st.1
    let npv := st.2.1
    let dnpv := st.2.2
    if |npv| < 1 / 1000000 then (some rate, 1)
    else if |dnpv| < 1 / 10000000000 then (none, 1)
    else
      let rate' := rate - npv / dnpv
      if rate' < -(99 / 100 : ℚ) ∨ 10 < rate' then (none, 1)
      else
        let res := xirrIterate fpow pairs rate' fuel
        (res.1, res.2 + 1)

/-- `ReturnsCalculator._calculate_xirr_newton_raphson` (lines 295-352): `none`
for mismatched lengths or fewer than two cash flows; otherwise dates become
fractional years from the first date over a 365.25-day year and the iteration
starts from the guess (default 0.1) with at most 100 iterations. -/
def calculateXirrNewtonRaphson (fpow : ℚ → ℚ → ℚ) (dates : List ℤ)
    (amounts : List ℚ) (guess : ℚ) : Option ℚ :=
  if dates.length ≠ amounts.length then none
  else if dates.length < 2 then none
  else
    match dates with
    | [] => none
    | base_date :: _ =>
      let years := dates.map (fun d => ((d - base_date : ℤ) : ℚ) / (1461 / 4 : ℚ))
      (xirrIterate fpow (amounts.zip years) guess 100).1

/-! Theorems about the claims. -/

-- `Rat` arithmetic is marked irreducible for elaboration performance; make it
-- reducible again so concrete rational computations can be settled by `decide`.
unseal Rat.mul Rat.inv Rat.add Rat.sub

/-- Claim C8: for every parsed transaction constructed without an explicit net
amount, the derived net amount equals gross + brokerage + taxes + other_charges
for a buy and gross − brokerage − taxes − other_charges for every other
transaction type; an explicit net amount is kept unchanged. -/
theorem c8_net_amount_derivation (ty : TransactionType)
    (q p g b tax oc : ℚ) :
    (mkParsedTransaction ty q p g b tax oc none).net_amount =
      (if ty = TransactionType.buy then some (g + b + tax + oc)
       else some (g - b - tax - oc)) ∧
    (∀ n : ℚ, (mkParsedTransaction ty q p g b tax oc (some n)).net_amount = some n) := by
  constructor
  · by_cases h : ty = TransactionType.buy <;> simp [mkParsedTransaction, h]
  · intro n; simp [mkParsedTransaction]

/-- The C1 scenario: purchases of 100@30, 100@40, 100@50 on consecutive days
followed by a sale of 150@45 (gross amounts quantity × price, as the parsers
produce them). -/
def c1Txns : List Txn :=
  [{ id := "b1", instrument_id := "INST1", instrument_name := some "FIFO Test",
     transaction_type := .buy, transaction_date := 0, quantity := 100, price := 30,
     gross_amount := 3000, net_amount := some 3000, currency := "INR" },
   { id := "b2", instrument_id := "INST1", instrument_name := some "FIFO Test",
     transaction_type := .buy, transaction_date := 1, quantity := 100, price := 40,
     gross_amount := 4000, net_amount := some 4000, currency := "INR" },
   { id := "b3", instrument_id := "INST1", instrument_name := some "FIFO Test",
     transaction_type := .buy, transaction_date := 2, quantity := 100, price := 50,
     gross_amount := 5000, net_amount := some 5000, currency := "INR" },
   { id := "s1", instrument_id := "INST1", instrument_name := some "FIFO Test",
     transaction_type := .sell, transaction_date := 3, quantity := 150, price := 45,
     gross_amount := 6750, net_amount := some 6750, currency := "INR" }]

/-- Claim C1: replaying the C1 transaction sequence through the position
calculator's FIFO tax-lot loop yields exactly one realized gain of
`150·45 − (100·30 + 50·40) = 1750` on a cost basis of 5000, and the resulting
position snapshot has quantity 150, remaining cost basis 7000 and average cost
7000/150. -/
theorem c1_fifo_cost_basis :
    (match replayLoop (sortTxnsAsc c1Txns) (0, 0, [], []) with
      | .ok out => some (out.1, out.2.2.2.map (fun g => (g.realized_gain, g.cost_basis)))
      | .error _ => none) = some (150, [(1750, 5000)]) ∧
    (match calculatePosition c1Txns none 10 with
      | .ok snap => some (snap.quantity, snap.total_cost, snap.average_cost)
      | .error _ => none) = some (150, 7000, 7000 / 150) := by
  constructor <;> decide

/-- Claim C5 (code bug): registering an email that already exists.  The inner
`HTTPException(400, "Email already registered")` is raised, but `register` has
no `except HTTPException` clause, so its blanket `except Exception` converts it
into a 500 "Registration failed" response; the user table is left unchanged
(conflict detected before any insert, and the handler rolls back). -/
theorem c5_duplicate_registration_returns_500 (hashFn : String → String)
    (hp fn : String) :
    register hashFn { email := "user@example.com", password := "pw2", full_name := "Second" }
      [{ email := "user@example.com", hashed_password := hp, full_name := fn, is_active := true }] =
      (.error { status := 500, detail := "Registration failed" },
       [{ email := "user@example.com", hashed_password := hp, full_name := fn, is_active := true }]) := by
  rfl

/-- Claim C2 (code bug): the capital-gains endpoint resolves
`TaxLot.buy_transaction` and `TaxLot.status` while building its query, neither
of which is an attribute of the `TaxLot` model, so every call — for every
financial-year string and every database state — is answered with the generic
500 "Error generating capital gains report" instead of the windowed report. -/
theorem c2_capital_gains_report_always_500 (financial_year : String)
    (db_lots : List TaxLot) :
    getCapitalGainsReport financial_year db_lots =
      .error { status := 500, detail := "Error generating capital gains report" } := by
  unfold getCapitalGainsReport
  rcases parseFinancialYear financial_year with _ | p
  · rfl
  · rw [dif_neg]
    decide

/-- The concrete stock-split scenario of claim C3: a pending 1-for-2 split
applied to a single position of 100 shares at average cost 50 with one open
tax lot of 100 shares at cost 50. -/
def c3Action : StockSplitAction :=
  { status := .pending, ratio_old := some 1, ratio_new := some 2 }

/-- The portfolio state for the C3 scenario. -/
def c3State : CAState :=
  { positions := [{ quantity := 100, average_cost := 50 }]
    tax_lots := [{ position_id := "p1", transaction_id := "b1", quantity := 100,
                   remaining_quantity := 100, cost_per_share := 50,
                   acquisition_date := 0, is_closed := false }] }

/-- Claim C3 (code bug): processing the 1-for-2 split does not produce 200
shares at average cost 25 — the position loop reads `position.average_price`,
which does not exist on the `Position` model (`average_cost` does), so the
processor raises, marks the action `failed`, and leaves both the position and
the tax lot exactly as they were. -/
theorem c3_stock_split_fails_with_attribute_error :
    processActionStockSplit c3Action c3State =
      (.error "AttributeError: Position has no attribute average_price",
       .failed, c3State) ∧
    c3State.positions = [{ quantity := 100, average_cost := 50 }] := by
  constructor
  · rfl
  · rfl

/-- Per-fuel bound for the Newton-Raphson iteration: the loop body runs at most
`fuel` times. -/
theorem xirrIterate_iterations_le (fpow : ℚ → ℚ → ℚ) (pairs : List (ℚ × ℚ)) :
    ∀ (fuel : Nat) (rate : ℚ), (xirrIterate fpow pairs rate fuel).2 ≤ fuel := by
  intro fuel
  induction fuel with
  | zero => intro rate; simp [xirrIterate]
  | succ n ih =>
    intro rate
    simp only [xirrIterate]
    split_ifs <;> simp only []
    · exact Nat.le_add_left 1 n
    · exact Nat.le_add_left 1 n
    · exact Nat.le_add_left 1 n
    · have := ih ((npvLoop fpow pairs rate).1 -
        (npvLoop fpow pairs rate).2.1 / (npvLoop fpow pairs rate).2.2)
      omega

/-- Claim C10: the XIRR Newton-Raphson routine terminates on every input — the
iteration executes its body at most 100 times, and the wrapper always returns
either a rate or an absent result. -/
theorem c10_xirr_termination (fpow : ℚ → ℚ → ℚ) (dates : List ℤ)
    (amounts : List ℚ) (guess rate : ℚ) (pairs : List (ℚ × ℚ)) :
    (xirrIterate fpow pairs rate 100).2 ≤ 100 ∧
    (calculateXirrNewtonRaphson fpow dates amounts guess = none ∨
      ∃ r, calculateXirrNewtonRaphson fpow dates amounts guess = some r) := by
  refine ⟨xirrIterate_iterations_le fpow pairs 100 rate, ?_⟩
  rcases h : calculateXirrNewtonRaphson fpow dates amounts guess with _ | r
  · exact Or.inl rfl
  · exact Or.inr ⟨r, rfl⟩

/-! Claim C4: the tax-lot invariant. -/

/-- The tax-lot invariant of claim C4: the remaining quantity lies in
`[0, quantity]` and `is_closed` holds exactly when it is zero. -/
def LotInv (l : TaxLot) : Prop :=
  0 ≤ l.remaining_quantity ∧ l.remaining_quantity ≤ l.quantity ∧
    (l.is_closed = true ↔ l.remaining_quantity = 0)

instance (l : TaxLot) : Decidable (LotInv l) := by
  unfold LotInv; infer_instance

/-- Membership in an ascending lot insertion comes from the inserted element or
the original list. -/
theorem mem_insertLotAsc {x y : TaxLot} : ∀ {l : List TaxLot},
    y ∈ insertLotAsc x l → y = x ∨ y ∈ l := by
  intro l
  induction l with
  | nil => intro h; simpa [insertLotAsc] using h
  | cons z zs ih =>
    intro h
    simp only [insertLotAsc] at h
    split_ifs at h
    · rcases List.mem_cons.mp h with h1 | h2
      · exact Or.inr (List.mem_cons.mpr (Or.inl h1))
      · rcases ih h2 with h3 | h4
        · exact Or.inl h3
        · exact Or.inr (List.mem_cons.mpr (Or.inr h4))
    · rcases List.mem_cons.mp h with h1 | h2
      · exact Or.inl h1
      · exact Or.inr h2

/-- Sorting lots never introduces new elements. -/
theorem mem_sortLotsAsc {y : TaxLot} {l : List TaxLot}
    (h : y ∈ sortLotsAsc l) : y ∈ l := by
  have general : ∀ (l acc : List TaxLot),
      y ∈ l.foldl (fun acc x => insertLotAsc x acc) acc → y ∈ acc ∨ y ∈ l := by
    intro l
    induction l with
    | nil => intro acc h; exact Or.inl h
    | cons x xs ih =>
      intro acc h
      simp only [List.foldl_cons] at h
      rcases ih (insertLotAsc x acc) h with h1 | h2
      · rcases mem_insertLotAsc h1 with h3 | h4
        · exact Or.inr (List.mem_cons.mpr (Or.inl h3))
        · exact Or.inl h4
      · exact Or.inr (List.mem_cons.mpr (Or.inr h2))
  rcases general l [] h with h1 | h2
  · simp at h1
  · exact h2

/-- The FIFO sale loop preserves the lot invariant. -/
theorem consumeLots_inv : ∀ (rts : ℚ) (lots : List TaxLot),
    (∀ l ∈ lots, LotInv l) → ∀ l' ∈ (consumeLots rts lots).1, LotInv l' := by
  intro rts lots
  induction lots generalizing rts with
  | nil => intro _ l' h'; simp [consumeLots] at h'
  | cons lot rest ih =>
    intro hinv l' h'
    have hlot : LotInv lot := hinv lot (List.mem_cons_self lot rest)
    have hrest : ∀ l ∈ rest, LotInv l := fun l hl => hinv l (List.mem_cons_of_mem _ hl)
    simp only [consumeLots] at h'
    split_ifs at h' with h1 h2 hz
    · rcases List.mem_cons.mp h' with rfl | hmem
      · exact hlot
      · exact ih rts hrest l' hmem
    · rcases List.mem_cons.mp h' with rfl | hmem
      · exact hlot
      · exact ih rts hrest l' hmem
    · rcases List.mem_cons.mp h' with rfl | hmem
      · push_neg at h1 h2
        have hmin_le : min rts lot.remaining_quantity ≤ lot.remaining_quantity :=
          min_le_right _ _
        have hq : lot.remaining_quantity ≤ lot.quantity := hlot.2.1
        have hmin_pos : 0 < min rts lot.remaining_quantity := lt_min h1 h2
        refine ⟨?_, ?_, ?_⟩
        · show (0 : ℚ) ≤ lot.remaining_quantity - min rts lot.remaining_quantity
          linarith
        · show lot.remaining_quantity - min rts lot.remaining_quantity ≤ lot.quantity
          linarith
        · show (true = true) ↔ lot.remaining_quantity - min rts lot.remaining_quantity = 0
          have hge : (0 : ℚ) ≤ lot.remaining_quantity - min rts lot.remaining_quantity := by
            linarith
          exact ⟨fun _ => le_antisymm hz hge, fun _ => rfl⟩
      · exact ih (rts - min rts lot.remaining_quantity) hrest l' hmem
    · rcases List.mem_cons.mp h' with rfl | hmem
      · push_neg at h1 h2 hz
        have hmin_le : min rts lot.remaining_quantity ≤ lot.remaining_quantity :=
          min_le_right _ _
        have hmin_pos : 0 < min rts lot.remaining_quantity := lt_min h1 h2
        have hq : lot.remaining_quantity ≤ lot.quantity := hlot.2.1
        refine ⟨?_, ?_, ?_⟩
        · show (0 : ℚ) ≤ lot.remaining_quantity - min rts lot.remaining_quantity
          linarith
        · show lot.remaining_quantity - min rts lot.remaining_quantity ≤ lot.quantity
          linarith
        · show (lot.is_closed = true) ↔
            lot.remaining_quantity - min rts lot.remaining_quantity = 0
          constructor
          · intro hcl
            have := hlot.2.2.mp hcl
            linarith
          · intro heq; linarith
      · exact ih (rts - min rts lot.remaining_quantity) hrest l' hmem

/-- One step of the tax-lot manager preserves the invariant, provided a buy has
positive quantity. -/
theorem processTransaction_inv (t : Txn) (lots : List TaxLot)
    (res : List TaxLot × List RealizedGain)
    (hinv : ∀ l ∈ lots, LotInv l)
    (hbuy : t.transaction_type = TransactionType.buy → 0 < t.quantity)
    (h : processTransaction .fifo t lots = .ok res) :
    ∀ l ∈ res.1, LotInv l := by
  cases hty : t.transaction_type with
  | buy =>
    have hq : 0 < t.quantity := hbuy hty
    simp only [processTransaction, hty, processPurchase, Except.ok.injEq] at h
    intro l hl
    rw [← h] at hl
    simp only [List.mem_append, List.mem_singleton] at hl
    rcases hl with hl | rfl
    · exact hinv l hl
    · exact ⟨le_of_lt hq, le_refl _, by simp [ne_of_gt hq]⟩
  | sell =>
    simp only [processTransaction, hty, processSale, sortLotsForSale] at h
    by_cases hq : t.quantity = 0
    · simp [hq] at h
    · simp only [hq, if_neg, if_false] at h
      injection h with h
      subst h
      intro l hl
      exact consumeLots_inv t.quantity (sortLotsAsc lots)
        (fun u hu => hinv u (mem_sortLotsAsc hu)) l hl
  | dividend => simp only [processTransaction, hty, Except.ok.injEq] at h
                intro l hl; rw [← h] at hl; exact hinv l hl
  | interest => simp only [processTransaction, hty, Except.ok.injEq] at h
                intro l hl; rw [← h] at hl; exact hinv l hl
  | bonus => simp only [processTransaction, hty, Except.ok.injEq] at h
             intro l hl; rw [← h] at hl; exact hinv l hl
  | split => simp only [processTransaction, hty, Except.ok.injEq] at h
             intro l hl; rw [← h] at hl; exact hinv l hl
  | spin_off => simp only [processTransaction, hty, Except.ok.injEq] at h
                intro l hl; rw [← h] at hl; exact hinv l hl

/-- The sequence of lot states produced by applying the transactions through
the (FIFO) tax-lot manager one step at a time; a raised exception ends the
trace. -/
def lotTrace : List Txn → List TaxLot → List (List TaxLot)
  | [], _ => []
  | t :: ts, lots =>
    match processTransaction .fifo t lots with
    | .error _ => []
    | .ok res => res.1 :: lotTrace ts res.1

/-- The invariant holds at every state of the trace, from any invariant-abiding
starting lot list. -/
theorem lotTrace_inv : ∀ (txns : List Txn) (lots : List TaxLot),
    (∀ l ∈ lots, LotInv l) →
    (∀ t ∈ txns, t.transaction_type = TransactionType.buy → 0 < t.quantity) →
    ∀ ls ∈ lotTrace txns lots, ∀ lot ∈ ls, LotInv lot := by
  intro txns
  induction txns with
  | nil => intro lots _ _ ls hls; simp [lotTrace] at hls
  | cons t ts ih =>
    intro lots hinv hbuy ls hls
    simp only [lotTrace] at hls
    rcases hpt : processTransaction .fifo t lots with e | res
    · rw [hpt] at hls; simp at hls
    · rw [hpt] at hls
      simp only [List.mem_cons] at hls
      have hres : ∀ l ∈ res.1, LotInv l :=
        processTransaction_inv t lots res hinv
          (hbuy t (List.mem_cons_self t ts)) hpt
      rcases hls with rfl | hls
      · exact hres
      · exact ih res.1 hres (fun u hu => hbuy u (List.mem_cons_of_mem _ hu)) ls hls

/-- Claim C4, amended: for any transaction sequence in which every buy has
positive quantity, every lot's remaining quantity stays within
`[0, quantity]` after every step of the tax-lot manager, and `is_closed` holds
exactly when the remaining quantity is zero. -/
theorem c4_lot_invariant (txns : List Txn)
    (hbuy : ∀ t ∈ txns, t.transaction_type = TransactionType.buy → 0 < t.quantity) :
    ∀ ls ∈ lotTrace txns [], ∀ lot ∈ ls, LotInv lot :=
  lotTrace_inv txns [] (by simp) hbuy

/-- A buy transaction with quantity zero (a well-formed `Transaction` value the
manager accepts without error). -/
def c4ZeroBuy : Txn :=
  { id := "z1", instrument_id := "INSTZ", instrument_name := some "Zero",
    transaction_type := .buy, transaction_date := 0, quantity := 0, price := 10,
    gross_amount := 0, net_amount := some 0, currency := "INR" }

/-- Claim C4 as stated is false: processing a zero-quantity buy creates an open
lot whose remaining quantity is exactly zero while `is_closed` is still false,
violating the claimed equivalence. -/
theorem c4_counterexample :
    ¬ (∀ ls ∈ lotTrace [c4ZeroBuy] [], ∀ lot ∈ ls, LotInv lot) := by
  decide

/-- A concrete valid instance for the amended claim C4. -/
def c4WitnessTxns : List Txn :=
  [{ id := "w1", instrument_id := "INSTW", instrument_name := some "W",
     transaction_type := .buy, transaction_date := 0, quantity := 100, price := 30,
     gross_amount := 3000, net_amount := some 3000, currency := "INR" },
   { id := "w2", instrument_id := "INSTW", instrument_name := some "W",
     transaction_type := .sell, transaction_date := 1, quantity := 60, price := 35,
     gross_amount := 2100, net_amount := some 2100, currency := "INR" },
   { id := "w3", instrument_id := "INSTW", instrument_name := some "W",
     transaction_type := .sell, transaction_date := 2, quantity := 40, price := 20,
     gross_amount := 800, net_amount := some 800, currency := "INR" }]

/-- Witness for the amended claim C4 at a concrete transaction sequence. -/
theorem c4_witness :
    (∀ t ∈ c4WitnessTxns, t.transaction_type = TransactionType.buy → 0 < t.quantity) ∧
    (∀ ls ∈ lotTrace c4WitnessTxns [], ∀ lot ∈ ls, LotInv lot) :=
  ⟨by decide, c4_lot_invariant c4WitnessTxns (by decide)⟩

/-! Claim C9: oversell absorption. -/

/-- Mapping-sum over a stable lot insertion just adds the new value. -/
theorem sum_map_insertLotAsc (f : TaxLot → ℚ) (x : TaxLot) : ∀ (l : List TaxLot),
    ((insertLotAsc x l).map f).sum = f x + (l.map f).sum := by
  intro l
  induction l with
  | nil => simp [insertLotAsc]
  | cons z zs ih =>
    simp only [insertLotAsc]
    split_ifs
    · simp only [List.map_cons, List.sum_cons, ih]; ring
    · simp only [List.map_cons, List.sum_cons]

/-- Sorting the lots does not change any mapping-sum over them. -/
theorem sum_map_sortLotsAsc (f : TaxLot → ℚ) (l : List TaxLot) :
    ((sortLotsAsc l).map f).sum = (l.map f).sum := by
  have general : ∀ (l acc : List TaxLot),
      ((l.foldl (fun acc x => insertLotAsc x acc) acc).map f).sum =
        (acc.map f).sum + (l.map f).sum := by
    intro l
    induction l with
    | nil => intro acc; simp
    | cons x xs ih =>
      intro acc
      simp only [List.foldl_cons]
      rw [ih (insertLotAsc x acc), sum_map_insertLotAsc]
      simp only [List.map_cons, List.sum_cons]
      ring
  simpa [sortLotsAsc] using general l []

/-- The open quantity of a lot list is nonnegative. -/
theorem availableQuantity_nonneg (l : List TaxLot) : 0 ≤ availableQuantity l := by
  induction l with
  | nil => simp [availableQuantity]
  | cons x xs ih =>
    have hx : (0 : ℚ) ≤ if 0 < x.remaining_quantity then x.remaining_quantity else 0 := by
      split_ifs with h
      · exact le_of_lt h
      · exact le_refl 0
    have hxs : 0 ≤ availableQuantity xs := ih
    simp only [availableQuantity, List.map_cons, List.sum_cons] at hxs ⊢
    linarith

/-- Sorting preserves the open quantity. -/
theorem availableQuantity_sortLotsAsc (l : List TaxLot) :
    availableQuantity (sortLotsAsc l) = availableQuantity l :=
  sum_map_sortLotsAsc _ l

/-- Sorting preserves the open cost basis. -/
theorem remainingCost_sortLotsAsc (l : List TaxLot) :
    remainingCost (sortLotsAsc l) = remainingCost l :=
  sum_map_sortLotsAsc _ l

/-- When the quantity to sell strictly exceeds the total open quantity, the FIFO
consumption loop closes every lot, and the accumulated cost basis is exactly the
open cost basis of the input lots. -/
theorem consumeLots_oversell : ∀ (lots : List TaxLot) (rts : ℚ),
    (∀ l ∈ lots, LotInv l) → availableQuantity lots < rts →
    (consumeLots rts lots).2.2 = remainingCost lots ∧
    ∀ l' ∈ (consumeLots rts lots).1,
      l'.remaining_quantity = 0 ∧ l'.is_closed = true := by
  intro lots
  induction lots with
  | nil =>
    intro rts _ _
    exact ⟨by simp [consumeLots, remainingCost], by simp [consumeLots]⟩
  | cons lot rest ih =>
    intro rts hinv hover
    have hlot := hinv lot (List.mem_cons_self _ _)
    have hrest : ∀ l ∈ rest, LotInv l := fun l hl => hinv l (List.mem_cons_of_mem _ hl)
    have havail : availableQuantity (lot :: rest) =
        (if 0 < lot.remaining_quantity then lot.remaining_quantity else 0) +
          availableQuantity rest := by
      simp [availableQuantity]
    have hrest_avail : 0 ≤ availableQuantity rest := availableQuantity_nonneg rest
    have h1 : ¬ rts ≤ 0 := by
      have h0 : 0 ≤ availableQuantity (lot :: rest) := availableQuantity_nonneg _
      push_neg
      linarith
    by_cases h2 : lot.remaining_quantity ≤ 0
    · have hrem0 : lot.remaining_quantity = 0 := le_antisymm h2 hlot.1
      have hclosed : lot.is_closed = true := hlot.2.2.mpr hrem0
      have hover' : availableQuantity rest < rts := by
        rw [havail, if_neg (by linarith)] at hover
        linarith
      obtain ⟨hcb, hall⟩ := ih rts hrest hover'
      constructor
      · simp only [consumeLots, if_neg h1, if_pos h2]
        rw [hcb]
        simp [remainingCost, hrem0]
      · intro l' hl'
        simp only [consumeLots, if_neg h1, if_pos h2] at hl'
        rcases List.mem_cons.mp hl' with rfl | hm
        · exact ⟨hrem0, hclosed⟩
        · exact hall l' hm
    · push_neg at h1 h2
      have hle : lot.remaining_quantity ≤ rts := by
        rw [havail, if_pos h2] at hover
        linarith
      have hmin : min rts lot.remaining_quantity = lot.remaining_quantity :=
        min_eq_right hle
      have hover' : availableQuantity rest < rts - lot.remaining_quantity := by
        rw [havail, if_pos h2] at hover
        linarith
      obtain ⟨hcb, hall⟩ := ih (rts - lot.remaining_quantity) hrest hover'
      have hneg1 : ¬ rts ≤ 0 := by linarith
      have hneg2 : ¬ lot.remaining_quantity ≤ 0 := by linarith
      constructor
      · simp only [consumeLots, if_neg hneg1, if_neg hneg2, hmin]
        rw [hcb]
        simp [remainingCost, if_pos h2]
      · intro l' hl'
        simp only [consumeLots, if_neg hneg1, if_neg hneg2, hmin] at hl'
        rcases List.mem_cons.mp hl' with rfl | hm
        · constructor
          · show lot.remaining_quantity - lot.remaining_quantity = 0
            exact sub_self _
          · show (if lot.remaining_quantity - lot.remaining_quantity ≤ 0 then true
              else lot.is_closed) = true
            simp
        · exact hall l' hm

/-- Total bought quantity of a transaction list. -/
def totalBuyQuantity (ts : List Txn) : ℚ :=
  (ts.map (fun t =>
    if t.transaction_type = TransactionType.buy then t.quantity else 0)).sum

/-- Total sold quantity of a transaction list. -/
def totalSellQuantity (ts : List Txn) : ℚ :=
  (ts.map (fun t =>
    if t.transaction_type = TransactionType.sell then t.quantity else 0)).sum

/-- Mapping-sum over a stable transaction insertion adds the new value. -/
theorem sum_map_insertTxnAsc (f : Txn → ℚ) (x : Txn) : ∀ (l : List Txn),
    ((insertTxnAsc x l).map f).sum = f x + (l.map f).sum := by
  intro l
  induction l with
  | nil => simp [insertTxnAsc]
  | cons z zs ih =>
    simp only [insertTxnAsc]
    split_ifs
    · simp only [List.map_cons, List.sum_cons, ih]; ring
    · simp only [List.map_cons, List.sum_cons]

/-- Sorting the transactions does not change any mapping-sum over them. -/
theorem sum_map_sortTxnsAsc (f : Txn → ℚ) (l : List Txn) :
    ((sortTxnsAsc l).map f).sum = (l.map f).sum := by
  have general : ∀ (l acc : List Txn),
      ((l.foldl (fun acc x => insertTxnAsc x acc) acc).map f).sum =
        (acc.map f).sum + (l.map f).sum := by
    intro l
    induction l with
    | nil => intro acc; simp
    | cons x xs ih =>
      intro acc
      simp only [List.foldl_cons]
      rw [ih (insertTxnAsc x acc), sum_map_insertTxnAsc]
      simp only [List.map_cons, List.sum_cons]
      ring
  simpa [sortTxnsAsc] using general l []

/-- Membership in a stable transaction insertion. -/
theorem mem_insertTxnAsc {x y : Txn} : ∀ {l : List Txn},
    y ∈ insertTxnAsc x l → y = x ∨ y ∈ l := by
  intro l
  induction l with
  | nil => intro h; simpa [insertTxnAsc] using h
  | cons z zs ih =>
    intro h
    simp only [insertTxnAsc] at h
    split_ifs at h
    · rcases List.mem_cons.mp h with h1 | h2
      · exact Or.inr (List.mem_cons.mpr (Or.inl h1))
      · rcases ih h2 with h3 | h4
        · exact Or.inl h3
        · exact Or.inr (List.mem_cons.mpr (Or.inr h4))
    · rcases List.mem_cons.mp h with h1 | h2
      · exact Or.inl h1
      · exact Or.inr h2

/-- Sorting transactions never introduces new elements. -/
theorem mem_sortTxnsAsc {y : Txn} {l : List Txn}
    (h : y ∈ sortTxnsAsc l) : y ∈ l := by
  have general : ∀ (l acc : List Txn),
      y ∈ l.foldl (fun acc x => insertTxnAsc x acc) acc → y ∈ acc ∨ y ∈ l := by
    intro l
    induction l with
    | nil => intro acc h; exact Or.inl h
    | cons x xs ih =>
      intro acc h
      simp only [List.foldl_cons] at h
      rcases ih (insertTxnAsc x acc) h with h1 | h2
      · rcases mem_insertTxnAsc h1 with h3 | h4
        · exact Or.inr (List.mem_cons.mpr (Or.inl h3))
        · exact Or.inl h4
      · exact Or.inr (List.mem_cons.mpr (Or.inr h2))
  rcases general l [] h with h1 | h2
  · simp at h1
  · exact h2

/-- Inserting increases the length by one. -/
theorem length_insertTxnAsc (x : Txn) : ∀ (l : List Txn),
    (insertTxnAsc x l).length = l.length + 1 := by
  intro l
  induction l with
  | nil => simp [insertTxnAsc]
  | cons z zs ih =>
    simp only [insertTxnAsc]
    split_ifs
    · simp [ih]
    · simp

/-- Sorting preserves the length. -/
theorem length_sortTxnsAsc (l : List Txn) : (sortTxnsAsc l).length = l.length := by
  have general : ∀ (l acc : List Txn),
      (l.foldl (fun acc x => insertTxnAsc x acc) acc).length = acc.length + l.length := by
    intro l
    induction l with
    | nil => intro acc; simp
    | cons x xs ih =>
      intro acc
      simp only [List.foldl_cons]
      rw [ih (insertTxnAsc x acc), length_insertTxnAsc]
      simp only [List.length_cons]
      omega
  simpa [sortTxnsAsc] using general l []

/-- The replay loop's accumulated quantity is the start value plus bought
quantities minus sold quantities. -/
theorem replayLoop_quantity : ∀ (ts : List Txn) (tq tc : ℚ) (lots : List TaxLot)
    (gains : List RealizedGain) (out : ℚ × ℚ × List TaxLot × List RealizedGain),
    replayLoop ts (tq, tc, lots, gains) = .ok out →
    out.1 = tq + totalBuyQuantity ts - totalSellQuantity ts := by
  intro ts
  induction ts with
  | nil =>
    intro tq tc lots gains out h
    simp only [replayLoop] at h
    injection h with h
    subst h
    simp [totalBuyQuantity, totalSellQuantity]
  | cons t ts ih =>
    intro tq tc lots gains out h
    simp only [replayLoop] at h
    have hbq : totalBuyQuantity (t :: ts) =
        (if t.transaction_type = TransactionType.buy then t.quantity else 0) +
          totalBuyQuantity ts := by
      simp [totalBuyQuantity]
    have hsq : totalSellQuantity (t :: ts) =
        (if t.transaction_type = TransactionType.sell then t.quantity else 0) +
          totalSellQuantity ts := by
      simp [totalSellQuantity]
    cases hty : t.transaction_type with
    | buy =>
      rw [hty] at h
      have := ih _ _ _ _ out h
      rw [hbq, hsq, hty, this]
      simp
      ring
    | sell =>
      rw [hty] at h
      rcases hps : processSale .fifo t lots with e | res
      · rw [hps] at h; exact absurd h (by simp)
      · rw [hps] at h
        have := ih _ _ _ _ out h
        rw [hbq, hsq, hty, this]
        simp
        ring
    | dividend =>
      rw [hty] at h
      have := ih _ _ _ _ out h
      rw [hbq, hsq, hty, this]
      simp
    | interest =>
      rw [hty] at h
      have := ih _ _ _ _ out h
      rw [hbq, hsq, hty, this]
      simp
    | bonus =>
      rw [hty] at h
      have := ih _ _ _ _ out h
      rw [hbq, hsq, hty, this]
      simp
    | split =>
      rw [hty] at h
      have := ih _ _ _ _ out h
      rw [hbq, hsq, hty, this]
      simp
    | spin_off =>
      rw [hty] at h
      have := ih _ _ _ _ out h
      rw [hbq, hsq, hty, this]
      simp

/-- With positive quantities throughout, the replay loop never raises. -/
theorem replayLoop_ok : ∀ (ts : List Txn) (tq tc : ℚ) (lots : List TaxLot)
    (gains : List RealizedGain), (∀ u ∈ ts, 0 < u.quantity) →
    ∃ out, replayLoop ts (tq, tc, lots, gains) = .ok out := by
  intro ts
  induction ts with
  | nil => intro tq tc lots gains _; exact ⟨(tq, tc, lots, gains), rfl⟩
  | cons t ts ih =>
    intro tq tc lots gains hpos
    have hrest : ∀ u ∈ ts, 0 < u.quantity :=
      fun u hu => hpos u (List.mem_cons_of_mem _ hu)
    have ht : 0 < t.quantity := hpos t (List.mem_cons_self _ _)
    have hq : t.quantity ≠ 0 := ne_of_gt ht
    cases hty : t.transaction_type with
    | buy =>
      obtain ⟨out, hout⟩ := ih (tq + t.quantity)
        (tc + netOrGross t.net_amount t.gross_amount)
        (processPurchase t lots).1 (gains ++ (processPurchase t lots).2) hrest
      exact ⟨out, by simp only [replayLoop, hty]; exact hout⟩
    | sell =>
      rcases hps : processSale .fifo t lots with e | res
      · exfalso
        simp only [processSale, sortLotsForSale, if_neg hq] at hps
        exact Except.noConfusion hps
      · obtain ⟨out, hout⟩ := ih (tq - t.quantity) tc res.1 (gains ++ res.2) hrest
        refine ⟨out, ?_⟩
        simp only [replayLoop, hty, hps]
        exact hout
    | dividend =>
      obtain ⟨out, hout⟩ := ih tq tc lots gains hrest
      exact ⟨out, by simp only [replayLoop, hty]; exact hout⟩
    | interest =>
      obtain ⟨out, hout⟩ := ih tq tc lots gains hrest
      exact ⟨out, by simp only [replayLoop, hty]; exact hout⟩
    | bonus =>
      obtain ⟨out, hout⟩ := ih tq tc lots gains hrest
      exact ⟨out, by simp only [replayLoop, hty]; exact hout⟩
    | split =>
      obtain ⟨out, hout⟩ := ih tq tc lots gains hrest
      exact ⟨out, by simp only [replayLoop, hty]; exact hout⟩
    | spin_off =>
      obtain ⟨out, hout⟩ := ih tq tc lots gains hrest
      exact ⟨out, by simp only [replayLoop, hty]; exact hout⟩

/-- Characterization of `calculatePosition` on a successful replay: the
snapshot's quantity is the replay loop's accumulated quantity. -/
theorem calculatePosition_ok_quantity (txns : List Txn) (t0 : Txn) (ts0 : List Txn)
    (s0 : Txn) (ss : List Txn) (cp : Option ℚ) (vd : ℤ)
    (htx : txns = t0 :: ts0) (hs2 : sortTxnsAsc txns = s0 :: ss)
    (tq tc : ℚ) (lotsF : List TaxLot) (gainsF : List RealizedGain)
    (hout : replayLoop (s0 :: ss) (0, 0, [], []) = .ok (tq, tc, lotsF, gainsF)) :
    ∃ snap, calculatePosition txns cp vd = .ok snap ∧ snap.quantity = tq := by
  subst htx
  simp only [calculatePosition, hs2, hout]
  exact ⟨_, rfl, rfl⟩

/-- Claim C9: a sell whose quantity strictly exceeds the total open quantity is
absorbed without error — the FIFO manager consumes and closes every lot,
reports the realized gain as full proceeds minus only the cost basis actually
available, and replaying any all-positive transaction list whose sells exceed
its buys leaves the position calculator with a negative quantity. -/
theorem c9_oversell_absorbed (t : Txn) (lots : List TaxLot)
    (hinv : ∀ l ∈ lots, LotInv l)
    (hover : availableQuantity lots < t.quantity) :
    (∃ lots' g, processSale .fifo t lots = .ok (lots', [g]) ∧
      g.realized_gain = t.quantity * t.price - remainingCost lots ∧
      g.cost_basis = remainingCost lots ∧
      ∀ l ∈ lots', l.remaining_quantity = 0 ∧ l.is_closed = true) ∧
    (∀ txns : List Txn, txns ≠ [] → (∀ u ∈ txns, 0 < u.quantity) →
      totalBuyQuantity txns < totalSellQuantity txns →
      ∃ snap, calculatePosition txns none 0 = .ok snap ∧ snap.quantity < 0) := by
  constructor
  · have hq : t.quantity ≠ 0 :=
      ne_of_gt (lt_of_le_of_lt (availableQuantity_nonneg lots) hover)
    have hsinv : ∀ l ∈ sortLotsAsc lots, LotInv l :=
      fun l hl => hinv l (mem_sortLotsAsc hl)
    have hsover : availableQuantity (sortLotsAsc lots) < t.quantity := by
      rw [availableQuantity_sortLotsAsc]
      exact hover
    obtain ⟨hcb, hall⟩ := consumeLots_oversell (sortLotsAsc lots) t.quantity hsinv hsover
    have key : ∀ res, processSale .fifo t lots = .ok res →
        res.2.map (fun g => (g.realized_gain, g.cost_basis)) =
          [(t.quantity * t.price - remainingCost lots, remainingCost lots)] ∧
        ∀ l ∈ res.1, l.remaining_quantity = 0 ∧ l.is_closed = true := by
      intro res hres
      simp only [processSale, sortLotsForSale, if_neg hq] at hres
      injection hres with hres
      subst hres
      constructor
      · simp only [List.map_cons, List.map_nil]
        rw [hcb, remainingCost_sortLotsAsc]
      · exact hall
    rcases hres : processSale .fifo t lots with e | res
    · exfalso
      simp only [processSale, sortLotsForSale, if_neg hq] at hres
      exact Except.noConfusion hres
    · obtain ⟨h1, h2⟩ := key res hres
      rcases res with ⟨lots', gains⟩
      rcases gains with _ | ⟨g, grest⟩
      · exact absurd h1 (by simp)
      · rcases grest with _ | ⟨g2, grest2⟩
        · simp only [List.map_cons, List.map_nil, List.cons.injEq, and_true] at h1
          exact ⟨lots', g, rfl, congrArg Prod.fst h1, congrArg Prod.snd h1, h2⟩
        · exact absurd h1 (by simp)
  · intro txns hne hpos hlt
    obtain ⟨out, hout⟩ := replayLoop_ok (sortTxnsAsc txns) 0 0 [] []
      (fun u hu => hpos u (mem_sortTxnsAsc hu))
    obtain ⟨tq, tc, lotsF, gainsF⟩ := out
    have htq : tq = totalBuyQuantity txns - totalSellQuantity txns := by
      have h := replayLoop_quantity (sortTxnsAsc txns) 0 0 [] []
        (tq, tc, lotsF, gainsF) hout
      have hb : totalBuyQuantity (sortTxnsAsc txns) = totalBuyQuantity txns :=
        sum_map_sortTxnsAsc _ txns
      have hs : totalSellQuantity (sortTxnsAsc txns) = totalSellQuantity txns :=
        sum_map_sortTxnsAsc _ txns
      rw [hb, hs] at h
      simpa using h
    cases txns with
    | nil => exact absurd rfl hne
    | cons t0 ts0 =>
      rcases hs2 : sortTxnsAsc (t0 :: ts0) with _ | ⟨s0, ss⟩
      · exfalso
        have hlen := length_sortTxnsAsc (t0 :: ts0)
        rw [hs2] at hlen
        simp at hlen
      · rw [hs2] at hout
        obtain ⟨snap, hsnap, hsq⟩ := calculatePosition_ok_quantity (t0 :: ts0) t0 ts0
          s0 ss none 0 rfl hs2 tq tc lotsF gainsF hout
        refine ⟨snap, hsnap, ?_⟩
        rw [hsq, htq]
        linarith

/-- A single open lot of 100 shares at cost 30, for the C9 witness. -/
def c9Lots : List TaxLot :=
  [{ position_id := "p", transaction_id := "b1", quantity := 100,
     remaining_quantity := 100, cost_per_share := 30, acquisition_date := 0,
     is_closed := false }]

/-- An oversized sell of 150 shares at price 45, for the C9 witness. -/
def c9SellTxn : Txn :=
  { id := "s9", instrument_id := "INST9", instrument_name := some "Over",
    transaction_type := .sell, transaction_date := 5, quantity := 150, price := 45,
    gross_amount := 6750, net_amount := some 6750, currency := "INR" }

/-- Buy 100 then sell 150, for the position-quantity part of the C9 witness. -/
def c9Txns : List Txn :=
  [{ id := "b9", instrument_id := "INST9", instrument_name := some "Over",
     transaction_type := .buy, transaction_date := 0, quantity := 100, price := 30,
     gross_amount := 3000, net_amount := some 3000, currency := "INR" },
   c9SellTxn]

/-- Witness for claim C9 at a concrete oversell scenario. -/
theorem c9_witness :
    (availableQuantity c9Lots < c9SellTxn.quantity ∧
      (∃ lots' g, processSale .fifo c9SellTxn c9Lots = .ok (lots', [g]) ∧
        g.realized_gain = c9SellTxn.quantity * c9SellTxn.price - remainingCost c9Lots ∧
        g.cost_basis = remainingCost c9Lots ∧
        ∀ l ∈ lots', l.remaining_quantity = 0 ∧ l.is_closed = true)) ∧
    (totalBuyQuantity c9Txns < totalSellQuantity c9Txns ∧
      ∃ snap, calculatePosition c9Txns none 0 = .ok snap ∧ snap.quantity < 0) :=
  ⟨⟨by decide,
    (c9_oversell_absorbed c9SellTxn c9Lots (by decide) (by decide)).1⟩,
   ⟨by decide,
    (c9_oversell_absorbed c9SellTxn c9Lots (by decide) (by decide)).2 c9Txns
      (by decide) (by decide) (by decide)⟩⟩

/-! Claim C6: canonical-id generation. -/

/-- A parsed manual-asset transaction with no identifiers: name "Gold",
exchange `MANUAL` (as the manual-asset processor tags it). -/
def c6GoldTxn : ParsedTxnIdentifiers :=
  { isin := none, amfi_code := none, cusip := none, symbol := none,
    exchange := some "MANUAL", instrument_name := "Gold" }

/-- A manual-type identifier, as the canonicalizer's fallback primary. -/
def c6ManualId : InstrumentIdentifier :=
  { identifier_type := .manual, value := "", exchange := none, country := none }

set_option maxRecDepth 4000 in
/-- Claim C6 is false for the ingestion service's direct instrument creation:
its manual fallback id for the name "Gold" is `MANUAL:9768feb3` — lower-case
hex with no asset-class segment — and differs from the canonicalization
engine's `MANUAL:<ASSET_CLASS>:<8 upper hex>` form for every plausible asset
class (commodity or the default equity). -/
theorem c6_counterexample :
    ingestionGenerateCanonicalId c6GoldTxn = "MANUAL:9768feb3" ∧
    canonicalIdGenerate c6ManualId AssetClass.commodity "Gold" =
      "MANUAL:COMMODITY:9768FEB3" ∧
    ingestionGenerateCanonicalId c6GoldTxn ≠
      canonicalIdGenerate c6ManualId AssetClass.commodity "Gold" ∧
    ingestionGenerateCanonicalId c6GoldTxn ≠
      canonicalIdGenerate c6ManualId AssetClass.equity "Gold" := by
  exact ⟨by decide, by decide, by decide, by decide⟩

/-- Claim C6, amended: the canonicalization engine selects the ISIN over a
symbol regardless of identifier order and emits `ISIN:<value>`, emits
`<EXCHANGE>:<symbol>` for a symbol with an exchange, and emits the
deterministic `MANUAL:<ASSET_CLASS>:<8 upper-case hex of MD5 of the name>` for
a manual identifier; the ingestion service's direct creation follows the same
ISIN-first priority for identifiers, but its manual fallback is
`MANUAL:<8 lower-case hex of MD5 of the name>` with no asset-class segment. -/
theorem c6_canonical_id_generation (i s m : InstrumentIdentifier)
    (ac : AssetClass) (name e : String) (p : ParsedTxnIdentifiers)
    (hi : i.identifier_type = IdentifierType.isin)
    (hs : s.identifier_type = IdentifierType.symbol)
    (hm : m.identifier_type = IdentifierType.manual)
    (hse : s.exchange = some e) (he : e.data.isEmpty = false) :
    (selectPrimaryIdentifier [i, s] = some i ∧
     selectPrimaryIdentifier [s, i] = some i) ∧
    canonicalIdGenerate i ac name = "ISIN:" ++ i.value ∧
    canonicalIdGenerate s ac name = e ++ ":" ++ s.value ∧
    canonicalIdGenerate m ac name =
      "MANUAL:" ++ asciiUpper ac.value ++ ":" ++ asciiUpper (strTake 8 (md5Hex name)) ∧
    (pyTruthyStr p.isin = true →
      ingestionGenerateCanonicalId p = "ISIN:" ++ p.isin.getD "") ∧
    (pyTruthyStr p.isin = false → pyTruthyStr p.amfi_code = false →
      pyTruthyStr p.cusip = false → pyTruthyStr p.symbol = true →
      pyTruthyStr p.exchange = true →
      ingestionGenerateCanonicalId p = p.exchange.getD "" ++ ":" ++ p.symbol.getD "") ∧
    (pyTruthyStr p.isin = false → pyTruthyStr p.amfi_code = false →
      pyTruthyStr p.cusip = false →
      (pyTruthyStr p.symbol && pyTruthyStr p.exchange) = false →
      ingestionGenerateCanonicalId p =
        "MANUAL:" ++ strTake 8 (md5Hex p.instrument_name)) := by
  refine ⟨⟨?_, ?_⟩, ?_, ?_, ?_, ?_, ?_, ?_⟩
  · simp [selectPrimaryIdentifier, idPriority, hi, hs]
  · simp [selectPrimaryIdentifier, idPriority, hi, hs]
  · simp [canonicalIdGenerate, hi]
  · simp [canonicalIdGenerate, hs, exchangeOrUnk, hse, he]
  · simp [canonicalIdGenerate, hm]
  · intro h1
    simp [ingestionGenerateCanonicalId, h1]
  · intro h1 h2 h3 h4 h5
    simp [ingestionGenerateCanonicalId, h1, h2, h3, h4, h5]
  · intro h1 h2 h3 h4
    simp [ingestionGenerateCanonicalId, h1, h2, h3, h4]

/-- ISIN identifier for the C6 witness (normalization upper-cases and trims). -/
def c6I : InstrumentIdentifier :=
  mkInstrumentIdentifier .isin " ine002a01018 " none (some "in")

/-- Symbol identifier for the C6 witness. -/
def c6S : InstrumentIdentifier :=
  mkInstrumentIdentifier .symbol "reliance" (some "nse") none

/-- Manual identifier for the C6 witness. -/
def c6M : InstrumentIdentifier :=
  { identifier_type := .manual, value := "", exchange := none, country := none }

/-- Parsed-transaction identifiers for the C6 witness. -/
def c6P : ParsedTxnIdentifiers :=
  { isin := some "INE002A01018", amfi_code := none, cusip := none,
    symbol := some "RELIANCE", exchange := some "NSE",
    instrument_name := "Reliance Industries" }

/-- Witness for the amended claim C6 at concrete identifiers. -/
theorem c6_witness :
    (c6I.identifier_type = IdentifierType.isin ∧
     c6S.identifier_type = IdentifierType.symbol ∧
     c6M.identifier_type = IdentifierType.manual ∧
     c6S.exchange = some "NSE" ∧ "NSE".data.isEmpty = false) ∧
    ((selectPrimaryIdentifier [c6I, c6S] = some c6I ∧
      selectPrimaryIdentifier [c6S, c6I] = some c6I) ∧
     canonicalIdGenerate c6I AssetClass.equity "Reliance Industries" =
       "ISIN:" ++ c6I.value ∧
     canonicalIdGenerate c6S AssetClass.equity "Reliance Industries" =
       "NSE" ++ ":" ++ c6S.value ∧
     canonicalIdGenerate c6M AssetClass.equity "Reliance Industries" =
       "MANUAL:" ++ asciiUpper AssetClass.equity.value ++ ":" ++
         asciiUpper (strTake 8 (md5Hex "Reliance Industries")) ∧
     (pyTruthyStr c6P.isin = true →
       ingestionGenerateCanonicalId c6P = "ISIN:" ++ c6P.isin.getD "") ∧
     (pyTruthyStr c6P.isin = false → pyTruthyStr c6P.amfi_code = false →
       pyTruthyStr c6P.cusip = false → pyTruthyStr c6P.symbol = true →
       pyTruthyStr c6P.exchange = true →
       ingestionGenerateCanonicalId c6P =
         c6P.exchange.getD "" ++ ":" ++ c6P.symbol.getD "") ∧
     (pyTruthyStr c6P.isin = false → pyTruthyStr c6P.amfi_code = false →
       pyTruthyStr c6P.cusip = false →
       (pyTruthyStr c6P.symbol && pyTruthyStr c6P.exchange) = false →
       ingestionGenerateCanonicalId c6P =
         "MANUAL:" ++ strTake 8 (md5Hex c6P.instrument_name))) :=
  ⟨⟨by decide, by decide, by decide, by decide, by decide⟩,
   c6_canonical_id_generation c6I c6S c6M AssetClass.equity "Reliance Industries"
     "NSE" c6P (by decide) (by decide) (by decide) (by decide) (by decide)⟩

end Capitalflow
